import Mathlib

/-!
Shallow embedding of the `k8s-port-forward-mcp` server (TypeScript sources
`src/k8s.ts`, `src/index.ts`, `src/util.ts`) together with theorems about its
service-discovery parser, service resolver, port resolver and process
supervisor.

Strings are handled through structural helpers over `List Char` so that every
definition evaluates by kernel reduction.  JavaScript runtime values that the
code manipulates (numbers that may be `NaN` or non-integral, fields that may be
`undefined`) are modelled explicitly:

* `JSNum` is a JS number as far as this program observes it: an integer, a
  non-integer number (including infinities), or `NaN`.
* `Option String` models a string field that may be `undefined` at runtime.
* Fallible operations return `Except`; the `TypeError` raised when the parser
  dereferences an `undefined` name cell is modelled as `Except.error ()`.

Caveats of the embedding, stated once here: JavaScript's whitespace class also
contains rarely-used Unicode spaces not modelled by `isWsChar`; `Number(...)`
overflow of huge decimal literals to `Infinity` is modelled as the exact
integer (observationally equivalent here, since every consumer only checks
integrality and the 1..65535 range); and the dynamic `RegExp` built from a
namespace is modelled as a literal-prefix strip, which is exact for namespaces
free of regex metacharacters (Kubernetes namespaces are RFC 1123 labels:
lowercase alphanumerics and hyphen).
-/

namespace K8s

/-- JavaScript `\s` whitespace, restricted to the ASCII space characters. -/
def isWsChar (c : Char) : Bool :=
  c = ' ' ∨ c = '\t' ∨ c = '\n' ∨ c = '\r' ∨ c = '\x0b' ∨ c = '\x0c'

/-- Trim of a character list on both ends, as `String.prototype.trim`. -/
def trimChars (cs : List Char) : List Char :=
  ((cs.dropWhile isWsChar).reverse.dropWhile isWsChar).reverse

/-- JS `s.trim()`. -/
def strTrim (s : String) : String :=
  ⟨trimChars s.data⟩

/-- Splitting on a single separator character, as JS `s.split(sep)`:
empty pieces are kept, and the result is never empty. -/
def splitCharAux (sep : Char) : List Char → List Char → List (List Char)
  | [], acc => [acc.reverse]
  | c :: rest, acc =>
    if c = sep then acc.reverse :: splitCharAux sep rest []
    else splitCharAux sep rest (c :: acc)

def splitChar (sep : Char) (cs : List Char) : List (List Char) :=
  splitCharAux sep cs []

/-- JS `s.split("\n")` (the separator used on listing text). -/
def splitNl (s : String) : List String :=
  (splitChar '\n' s.data).map (fun l => ⟨l⟩)

/-- JS `s.split(/\s+/)`: splits on maximal whitespace runs; a leading or a
trailing run contributes an empty piece, exactly as the regex split does.
The boolean argument records whether the previous character was part of a
whitespace run already accounted for. -/
def jsSplitWsAux : Bool → List Char → List Char → List (List Char)
  | _, [], acc => [acc.reverse]
  | inWs, c :: rest, acc =>
    if isWsChar c then
      if inWs then jsSplitWsAux true rest acc
      else acc.reverse :: jsSplitWsAux true rest []
    else jsSplitWsAux false rest (c :: acc)

def jsSplitWs (s : String) : List String :=
  (jsSplitWsAux false s.data []).map (fun l => ⟨l⟩)

/-- JS `s.startsWith(p)`. -/
def strStartsWith (s p : String) : Bool :=
  p.data.isPrefixOf s.data

/-- Drop the first `n` characters of a string. -/
def strDrop (s : String) (n : Nat) : String :=
  ⟨s.data.drop n⟩

/-- Join character-list pieces with a single separator character, the inverse
of `splitChar` (JS `parts.join("-")`). -/
def joinSep (sep : Char) : List (List Char) → List Char
  | [] => []
  | [x] => x
  | x :: y :: rest => x ++ sep :: joinSep sep (y :: rest)

/-- First index of a string in a list, as JS `Array.prototype.indexOf`
(`none` plays the role of `-1`). -/
def idxOfStr (k : String) : List String → Option Nat
  | [] => none
  | x :: rest => if x = k then some 0 else (idxOfStr k rest).map (· + 1)

/-- JS `columns[i]` where `i` may be `-1` (modelled as `none`) and may be out
of range: both give `undefined`. -/
def cellAt (cols : List String) (idx : Option Nat) : Option String :=
  idx.bind cols.get?

/-- Association-list lookup by key (first occurrence wins), the behaviour of
both `Map.prototype.get` and property access on a JS object. -/
def assocLookup (k : String) : List (String × β) → Option β
  | [] => none
  | (k', v) :: rest => if k' = k then some v else assocLookup k rest

/-- Association-list update: replace the value of the first occurrence of the
key in place, or append the key at the end — the insertion-order semantics of
JS `Map.prototype.set` and of assignment to a JS object property. -/
def assocUpdate (k : String) (f : Option β → β) : List (String × β) → List (String × β)
  | [] => [(k, f none)]
  | (k', v) :: rest =>
    if k' = k then (k, f (some v)) :: rest else (k', v) :: assocUpdate k f rest

/-- A JavaScript number as observed by this program. -/
inductive JSNum where
  /-- an integral number -/
  | int (n : Int)
  /-- a number that is not an integer (non-integral finite values and
  infinities; `Number.isInteger` is `false` on all of them) -/
  | nonint
  /-- `NaN` -/
  | nan
deriving DecidableEq, Repr

/-- Value of a list of decimal digits. -/
def digitsToNat (ds : List Char) : Nat :=
  ds.foldl (fun a c => 10 * a + (c.toNat - 48)) 0

def isHexDigit (c : Char) : Bool :=
  c.isDigit ∨ ('a' ≤ c ∧ c ≤ 'f') ∨ ('A' ≤ c ∧ c ≤ 'F')

def hexDigitVal (c : Char) : Nat :=
  if c.isDigit then c.toNat - 48
  else if 'a' ≤ c ∧ c ≤ 'f' then c.toNat - 87
  else c.toNat - 55

def hexToNat (ds : List Char) : Nat :=
  ds.foldl (fun a c => 16 * a + hexDigitVal c) 0

/-- Unsigned decimal numeric literal: `digits [. digits] [e [sign] digits]`,
with at least one digit before or after the dot.  Returns the value as a
`JSNum` (exact; see the header note on overflow). -/
def jsDecCore (cs : List Char) : JSNum :=
  let ip := cs.takeWhile Char.isDigit
  let r1 := cs.dropWhile Char.isDigit
  let fp := match r1 with
    | '.' :: t => t.takeWhile Char.isDigit
    | _ => []
  let r2 := match r1 with
    | '.' :: t => t.dropWhile Char.isDigit
    | _ => r1
  if ip = [] ∧ fp = [] then .nan
  else
    let eres : Option Int := match r2 with
      | [] => some 0
      | e :: t =>
        if e = 'e' ∨ e = 'E' then
          let es : Int := match t with
            | '-' :: _ => -1
            | _ => 1
          let t2 := match t with
            | '+' :: u => u
            | '-' :: u => u
            | _ => t
          let ed := t2.takeWhile Char.isDigit
          if ed = [] ∨ t2.dropWhile Char.isDigit ≠ [] then none
          else some (es * digitsToNat ed)
        else none
    match eres with
    | none => .nan
    | some e =>
      let M : Nat := digitsToNat (ip ++ fp)
      let k : Int := e - fp.length
      if 0 ≤ k then .int (M * 10 ^ k.toNat)
      else if (10 ^ (-k).toNat : Nat) ∣ M then .int (M / 10 ^ (-k).toNat)
      else .nonint

/-- Signed decimal part of `Number(string)`: optional sign, then either the
literal `Infinity` or a decimal literal. -/
def jsSignedDec (cs : List Char) : JSNum :=
  let sgn : Int := match cs with
    | '-' :: _ => -1
    | _ => 1
  let body := match cs with
    | '+' :: r => r
    | '-' :: r => r
    | _ => cs
  if body = ['I', 'n', 'f', 'i', 'n', 'i', 't', 'y'] then .nonint
  else
    match jsDecCore body with
    | .int n => .int (sgn * n)
    | .nonint => .nonint
    | .nan => .nan

/-- JS `Number(string)` (`StringToNumber`): trim, empty means `0`, `0x`/`0b`/`0o`
radix literals (unsigned), otherwise an optionally signed decimal literal or
`Infinity`; anything else is `NaN`. -/
def jsStringToNumber (s : String) : JSNum :=
  let t := trimChars s.data
  match t with
  | [] => .int 0
  | '0' :: x :: rest =>
    if x = 'x' ∨ x = 'X' then
      if rest ≠ [] ∧ rest.all isHexDigit then .int (hexToNat rest) else .nan
    else if x = 'b' ∨ x = 'B' then
      if rest ≠ [] ∧ rest.all (fun c => c = '0' ∨ c = '1') then
        .int (rest.foldl (fun a c => 2 * a + (c.toNat - 48)) 0)
      else .nan
    else if x = 'o' ∨ x = 'O' then
      if rest ≠ [] ∧ rest.all (fun c => '0' ≤ c ∧ c ≤ '7') then
        .int (rest.foldl (fun a c => 8 * a + (c.toNat - 48)) 0)
      else .nan
    else jsSignedDec t
  | _ => jsSignedDec t

/-- JS `parseInt(s, 10)`: skip leading whitespace, optional sign, then the
longest leading run of decimal digits; `none` models `NaN`. -/
def jsParseInt (s : String) : Option Int :=
  let cs := s.data.dropWhile isWsChar
  let sgn : Int := match cs with
    | '-' :: _ => -1
    | _ => 1
  let body := match cs with
    | '+' :: r => r
    | '-' :: r => r
    | _ => cs
  let ds := body.takeWhile Char.isDigit
  if ds = [] then none else some (sgn * digitsToNat ds)

/-! ### `src/k8s.ts`: pod-listing parser -/

/-- `ENV_PREFIXES` from `src/k8s.ts`. -/
def ENV_PREFIXES : List String := ["dev", "qa", "stg", "prod"]

/-- `ServiceDetails` from `src/k8s.ts`.  The `ns` field (named `namespace` in
the source) is `Option String` because at runtime it holds `undefined` when
neither an explicit namespace nor a NAMESPACE cell is available. -/
structure ServiceDetails where
  id : String
  ns : Option String
  serviceName : String
deriving DecidableEq, Repr

/-- An environment map `Record<string, ServiceDetails>`, as an insertion-order
association list, the enumeration order of a JS object with string keys. -/
abbrev EnvMap := List (String × ServiceDetails)

/-- `ServicesMap` from `src/k8s.ts`: `Map<string, Record<string, ServiceDetails>>`,
again in insertion order. -/
abbrev ServicesMap := List (String × EnvMap)

/-- Column positions found by `headers.indexOf(...)`; `none` is `-1`. -/
structure HeaderIdx where
  nsIdx : Option Nat
  nameIdx : Option Nat
  statusIdx : Option Nat
deriving DecidableEq, Repr

def headerIdxOf (header : String) : HeaderIdx :=
  let hs := jsSplitWs header
  { nsIdx := idxOfStr ("NAMESPACE") hs
    nameIdx := idxOfStr ("NAME") hs
    statusIdx := idxOfStr ("STATUS") hs }

/-- The regex strip `serviceName.replace(envPrefixStripRegex, "")` with the
anchored alternation of `ENV_PREFIXES` each followed by a hyphen: the first
alternative whose text plus `-` prefixes the string is removed (at most one
alternative can match at position 0). -/
def stripEnvPfx (s : String) : String :=
  match ENV_PREFIXES.find? (fun e => strStartsWith s (e ++ "-")) with
  | some e => strDrop s (e.data.length + 1)
  | none => s

/-- The strip `shortServiceName.replace(new RegExp("^" + ns + "-", "g"), "")`,
guarded by the truthiness test `if (namespaceColumn)`: nothing happens when the
namespace is `undefined` or empty.  Exact for metacharacter-free namespaces
(see header note). -/
def stripNsPfx (nsCol : Option String) (s : String) : String :=
  match nsCol with
  | some ns =>
    if ns ≠ "" ∧ strStartsWith s (ns ++ "-") then strDrop s (ns.data.length + 1) else s
  | none => s

/-- `ENV_PREFIXES.find((env) => nameColumn.startsWith(env + "-")) ?? "default"`. -/
def envTagOfName (nm : String) : String :=
  (ENV_PREFIXES.find? (fun e => strStartsWith nm (e ++ "-"))).getD ("default")

/-- What one data row of the listing does. -/
inductive RowAction where
  /-- the row is filtered out (`continue`) or has too few name segments -/
  | skip
  /-- `nameColumn` is `undefined`, so `nameColumn.startsWith` raises `TypeError` -/
  | err
  /-- upsert `(short, env) := v` into the services map -/
  | put (short env : String) (v : ServiceDetails)
deriving DecidableEq, Repr

/-- The body of the row loop of `parseServicesMap`, lines 47-87 of
`src/k8s.ts`, as a decision: skip, raise, or produce an upsert. -/
def rowOutcome (expNs : Option String) (idx : HeaderIdx) (line : String) : RowAction :=
  let cols := jsSplitWs line
  let statusCell := cellAt cols idx.statusIdx
  if statusCell ≠ none ∧ statusCell ≠ some ("Running") then .skip
  else
    let nsCol : Option String := match expNs with
      | some n => some n
      | none => cellAt cols idx.nsIdx
    match cellAt cols idx.nameIdx with
    | none => .err
    | some nm =>
      let envTag := envTagOfName nm
      let parts := splitChar '-' nm.data
      if parts.length > 2 then
        let serviceName : String := ⟨joinSep '-' (parts.take (parts.length - 2))⟩
        let serviceId : String := ⟨joinSep '-' (parts.drop (parts.length - 2))⟩
        let short := stripNsPfx nsCol (stripEnvPfx serviceName)
        .put short envTag { id := serviceId, ns := nsCol, serviceName := serviceName }
      else .skip

/-- `if (!servicesMap.has(short)) servicesMap.set(short, {}); envMap[env] = v`. -/
def mapUpsert (m : ServicesMap) (s e : String) (v : ServiceDetails) : ServicesMap :=
  assocUpdate s (fun em => assocUpdate e (fun _ => v) (em.getD [])) m

/-- Nested lookup: the `ServiceDetails` registered under a short name and an
environment tag. -/
def mapLookup (m : ServicesMap) (s e : String) : Option ServiceDetails :=
  (assocLookup s m).bind (fun em => assocLookup e em)

/-- The row loop of `parseServicesMap`; `Except.error ()` models the
`TypeError` aborting the whole call. -/
def parseRows (expNs : Option String) (idx : HeaderIdx) :
    ServicesMap → List String → Except Unit ServicesMap
  | m, [] => .ok m
  | m, l :: rest =>
    match rowOutcome expNs idx l with
    | .skip => parseRows expNs idx m rest
    | .err => .error ()
    | .put s e v => parseRows expNs idx (mapUpsert m s e v) rest

/-- `parseServicesMap(podsData, namespace)` from `src/k8s.ts`. -/
def parseServicesMap (podsData : String) (ns : Option String) : Except Unit ServicesMap :=
  let lines := splitNl (strTrim podsData)
  match lines with
  | [] => .ok []
  | header :: dataLines => parseRows ns (headerIdxOf header) [] dataLines

/-! ### `src/k8s.ts`: service resolver and port query -/

/-- The options object passed to `resolveService`. -/
structure ResolveOpts where
  ns : Option String
  env : Option String
deriving DecidableEq, Repr

/-- The object returned by `resolveService` on success. -/
structure ResolvedTarget where
  ns : Option String
  podName : String
  serviceName : String
  environment : String
deriving DecidableEq, Repr

/-- `resolveService(servicesMap, shortServiceName, options)` from `src/k8s.ts`.
JS truthiness of `options.namespace` and of `env` makes the empty string behave
like an absent option; `Object.keys(envMap)[0]` on an empty record is
`undefined`, and indexing a record with `undefined` yields `undefined`. -/
def resolveService (m : ServicesMap) (short : String) (opts : ResolveOpts) :
    Option ResolvedTarget :=
  match assocLookup short m with
  | none => none
  | some envMap =>
    let viaNs : Option ResolvedTarget :=
      match opts.ns with
      | some ns =>
        if ns = "" then none
        else
          match envMap.find? (fun p => p.2.ns == some ns) with
          | some (env, d) =>
            some { ns := d.ns, podName := d.serviceName ++ "-" ++ d.id,
                   serviceName := d.serviceName, environment := env }
          | none => none
      | none => none
    match viaNs with
    | some r => some r
    | none =>
      let env : Option String := match opts.env with
        | some e => if e = "" then (envMap.head?).map (fun p => p.1) else some e
        | none => (envMap.head?).map (fun p => p.1)
      match env with
      | none => none
      | some e =>
        match assocLookup e envMap with
        | none => none
        | some d =>
          some { ns := d.ns, podName := d.serviceName ++ "-" ++ d.id,
                 serviceName := d.serviceName, environment := e }

/-- `getServicePort` from `src/k8s.ts`, abstracted over the result of the
`kubectl get service ... jsonpath` query (`Except.error` models the rejected
promise caught by the `try`/`catch`). -/
def getServicePort (q : Except Unit String) : String :=
  match q with
  | .error _ => "3000"
  | .ok out => if strTrim out = "" then "3000" else strTrim out

/-! ### `src/util.ts` and `src/index.ts`: validation, the start handler and the
stop handler -/

/-- `isValidPort` from `src/util.ts`:
`Number.isInteger(n) && n > 0 && n <= 65535`. -/
def isValidPort : JSNum → Bool
  | .int n => 0 < n ∧ n ≤ 65535
  | .nonint => false
  | .nan => false

/-- A `localPort` or `remotePort` field of a request entry, as received over
the wire: a number, a string, or absent (`undefined`/`null`, both of which the
handler treats alike here).  Other JSON types a client could send (booleans,
objects) are outside the model; they would go through the same `Number(...)`
coercion. -/
inductive PortField where
  | num (v : JSNum)
  | str (s : String)
  | absent
deriving DecidableEq, Repr

/-- One element of the `services` argument that is an object.  `serviceName`,
`ns` and `environment` are `none` when the field is absent or not a string
(the handler checks `typeof ... === "string"`); `includeLogs` is the value of
`s.includeLogs !== false`. -/
structure RawService where
  serviceName : Option String
  localPort : PortField
  remotePort : PortField
  ns : Option String
  environment : Option String
  includeLogs : Bool
deriving DecidableEq, Repr

/-- One element of the `services` argument: an object or something else
(`!s || typeof s !== "object"`). -/
inductive RawEntry where
  | obj (s : RawService)
  | nonObj
deriving DecidableEq, Repr

/-- Normalisation of `s.localPort`:
`typeof s.localPort === "number" ? s.localPort : Number(s.localPort)`
(`Number(undefined)` is `NaN`). -/
def localPortNum : PortField → JSNum
  | .num v => v
  | .str s => jsStringToNumber s
  | .absent => .nan

/-- Normalisation of `s.remotePort`: `null`/`undefined` stays absent, a number
is kept, anything else goes through `Number(...)`. -/
def remotePortNum : PortField → Option JSNum
  | .absent => none
  | .num v => some v
  | .str s => some (jsStringToNumber s)

/-- The integral value of a validated port (validation guarantees the
`JSNum.int` case; the other branches are unreachable afterwards). -/
def jsNumToInt : JSNum → Int
  | .int n => n
  | .nonint => 0
  | .nan => 0

/-- The `ResolvedService` interface of `src/index.ts` (one forward session). -/
structure ResolvedService where
  ns : Option String
  podName : String
  localPort : Int
  remotePort : Int
  label : String
  includeLogs : Bool
  environment : String
deriving DecidableEq, Repr

/-- Template-literal stringification of a possibly-`undefined` string. -/
def jsStr : Option String → String
  | some s => s
  | none => "undefined"

/-- The result of the external port query for a given (namespace, service
name); stands for `execPromise` of the `kubectl get service` command. -/
abbrev PortOracle := Option String → String → Except Unit String

/-- `parseInt(detected, 10) || 3000` applied to `getServicePort`'s result:
`NaN` and `0` are falsy and fall back to `3000`. -/
def detectRemotePort (q : Except Unit String) : Int :=
  match jsParseInt (getServicePort q) with
  | none => 3000
  | some n => if n = 0 then 3000 else n

/-- Per-entry processing of the `start_k8s_port_forward` loop (lines 199-271 of
`src/index.ts`): type normalisation, validation, resolution and remote-port
detection.  `Except.error` carries the message pushed onto `errors`. -/
def processEntry (m : ServicesMap) (pq : PortOracle) (i : Nat) :
    RawEntry → Except String ResolvedService
  | .nonObj => .error ("Entry " ++ toString (i + 1) ++ ": invalid object")
  | .obj s =>
    let serviceName : String := match s.serviceName with
      | some v => strTrim v
      | none => ""
    let lp := localPortNum s.localPort
    let rp := remotePortNum s.remotePort
    if serviceName = "" then
      .error ("Entry " ++ toString (i + 1) ++ ": serviceName is required")
    else if ¬ isValidPort lp then
      .error ("Entry " ++ toString (i + 1) ++ ": localPort must be 1-65535")
    else if (match rp with | some v => ! isValidPort v | none => false) then
      .error ("Entry " ++ toString (i + 1) ++ ": remotePort must be 1-65535")
    else
      match resolveService m serviceName { ns := s.ns, env := s.environment } with
      | none =>
        .error ("Entry " ++ toString (i + 1) ++ ": could not resolve service \"" ++
          serviceName ++ "\"" ++
          (match s.ns with
            | some n => if n = "" then "" else " in namespace " ++ n
            | none => "") ++
          ". Call list_k8s_services to see available names.")
      | some r =>
        let remotePortFinal : Int := match rp with
          | some v => jsNumToInt v
          | none => detectRemotePort (pq r.ns r.serviceName)
        let envLabel := if r.environment ≠ "default" then r.environment ++ "~" else ""
        .ok { ns := r.ns, podName := r.podName, localPort := jsNumToInt lp,
              remotePort := remotePortFinal,
              label := envLabel ++ serviceName ++ ":" ++ toString (jsNumToInt lp),
              includeLogs := s.includeLogs, environment := r.environment }

/-- The `kubectl logs` command opened in a terminal window for a session. -/
def logsCommand (r : ResolvedService) : String :=
  "kubectl logs --namespace " ++ jsStr r.ns ++ " " ++ r.podName ++ " -f"

/-- The argument vector of the spawned `kubectl port-forward` process. -/
def forwardArgs (r : ResolvedService) : List String :=
  ["port-forward", "--namespace", jsStr r.ns, r.podName,
   toString r.localPort ++ ":" ++ toString r.remotePort]

/-- Join with single spaces (JS `args.join(" ")`). -/
def strJoinSpace : List String → String
  | [] => ""
  | [x] => x
  | x :: y :: rest => x ++ " " ++ strJoinSpace (y :: rest)

def forwardCommand (r : ResolvedService) : String :=
  "kubectl " ++ strJoinSpace (forwardArgs r)

/-- Join with newlines (JS `lines.join("\n")`). -/
def strJoinNl : List String → String
  | [] => ""
  | [x] => x
  | x :: y :: rest => x ++ "\n" ++ strJoinNl (y :: rest)

/-- A handle held by the `portForwardProcesses` registry: the spawn arguments
and the output-prefix label of one `kubectl port-forward` child. -/
structure Spawn where
  args : List String
  label : String
deriving DecidableEq, Repr

def toSpawn (r : ResolvedService) : Spawn :=
  { args := forwardArgs r, label := r.label }

/-- Everything the start handler does that is visible outside it: the tool
response text, the registry after the call, the log windows opened (command
and title), and the processes spawned by this call. -/
structure StartOutcome where
  text : String
  registry : List Spawn
  logWindows : List (String × String)
  spawned : List Spawn
deriving DecidableEq, Repr

/-- The per-entry results of one `start_k8s_port_forward` call, in order. -/
def startResults (m : ServicesMap) (pq : PortOracle) (entries : List RawEntry) :
    List (Except String ResolvedService) :=
  entries.enum.map (fun p => processEntry m pq p.1 p.2)

/-- The `errors` accumulator: one message per failing entry, in entry order. -/
def startErrors (m : ServicesMap) (pq : PortOracle) (entries : List RawEntry) :
    List String :=
  (startResults m pq entries).filterMap
    (fun r => match r with | .error e => some e | .ok _ => none)

/-- The `resolved` accumulator: one session per succeeding entry, in order. -/
def startResolved (m : ServicesMap) (pq : PortOracle) (entries : List RawEntry) :
    List ResolvedService :=
  (startResults m pq entries).filterMap
    (fun r => match r with | .ok v => some v | .error _ => none)

/-- The `start_k8s_port_forward` handler (lines 184-346 of `src/index.ts`),
abstracted over the already-parsed services map and the port oracle, and over
the registry contents at call time.  The empty-array guard, the aggregation of
validation/resolution errors, the log windows, the spawns and the response
text follow the source; opening log windows and spawning only happen when no
entry failed. -/
def startHandler (m : ServicesMap) (pq : PortOracle) (entries : List RawEntry)
    (registry : List Spawn) : StartOutcome :=
  if entries.isEmpty then
    { text := "Error: 'services' must be a non-empty array of objects with serviceName and localPort.",
      registry := registry, logWindows := [], spawned := [] }
  else
    let errors := startErrors m pq entries
    let resolved := startResolved m pq entries
    if ¬ errors.isEmpty then
      { text := "Validation/resolution errors:\n" ++ strJoinNl errors,
        registry := registry, logWindows := [], spawned := [] }
    else
      let withLogs := resolved.filter (fun r => r.includeLogs)
      let commands :=
        withLogs.map (fun r => "# Logs: " ++ logsCommand r) ++
        resolved.map forwardCommand
      let spawned := resolved.map toSpawn
      let summary := strJoinNl (resolved.map (fun r =>
        "- " ++ r.label ++ " -> http://localhost:" ++ toString r.localPort ++
        " (pod " ++ r.podName ++ ")"))
      { text := "Port forwarding started for " ++ toString resolved.length ++
          " service(s):\n" ++ summary ++ "\n\n" ++
          "To run in a VS Code terminal instead, use:\n```\n" ++
          strJoinNl commands ++ "\n```",
        registry := registry ++ spawned,
        logWindows := withLogs.map (fun r => (logsCommand r, r.label)),
        spawned := spawned }

/-- A signal-delivery event of the stop handler, in program order. -/
inductive SigEvent where
  | sigint (p : Spawn)
  | waitMs (n : Nat)
  | sigkill (p : Spawn)
deriving DecidableEq, Repr

/-- Everything the stop handler does that is visible outside it. -/
structure StopOutcome where
  count : Nat
  message : String
  registry : List Spawn
  trace : List SigEvent
deriving DecidableEq, Repr

/-- The `stop_k8s_port_forward` handler (lines 348-381 of `src/index.ts`):
record the registered count, send `SIGINT` to every registered process, wait
500 ms, send `SIGKILL` to every registered process, clear the registry and
report the count. -/
def stopHandler (registry : List Spawn) : StopOutcome :=
  { count := registry.length,
    message :=
      if registry.length > 0 then
        "Stopped " ++ toString registry.length ++ " port-forward process(es)."
      else "No active port-forwards to stop.",
    registry := [],
    trace := registry.map SigEvent.sigint ++ [SigEvent.waitMs 500] ++
      registry.map SigEvent.sigkill }

/-! ### Reference functions used only to state properties -/

/-- First-some choice, the shape of JS `a ?? b` on options. -/
def oAlt : Option α → Option α → Option α
  | some x, _ => some x
  | none, b => b

/-- Whether a row's `(short, env)` key equals the given one; if so, the
`ServiceDetails` it writes. -/
def lastPutRow (expNs : Option String) (idx : HeaderIdx) (s e : String)
    (line : String) : Option ServiceDetails :=
  match rowOutcome expNs idx line with
  | .put s' e' v => if s' = s ∧ e' = e then some v else none
  | _ => none

/-- The `ServiceDetails` written by the last row of the listing that produces
the key `(s, e)` (later rows take precedence). -/
def lastPut (expNs : Option String) (idx : HeaderIdx) (s e : String) :
    List String → Option ServiceDetails
  | [] => none
  | l :: rest => oAlt (lastPut expNs idx s e rest) (lastPutRow expNs idx s e l)

/-- Key uniqueness at both levels of a services map. -/
def nodupServicesMap (m : ServicesMap) : Prop :=
  (m.map Prod.fst).Nodup ∧ ∀ p ∈ m, (p.2.map Prod.fst).Nodup

/-- Modelled from the claim text of C3 (not from the source): the environment
tag the claim predicts, derived from `fullServiceName` instead of from the pod
name. -/
def claimEnvTagOfServiceName (fullServiceName : String) : String :=
  (ENV_PREFIXES.find? (fun e => strStartsWith fullServiceName (e ++ "-"))).getD ("default")

/-- Whether the status cell filters the row out (`continue`). -/
def rowSkippedByStatus (idx : HeaderIdx) (line : String) : Prop :=
  cellAt (jsSplitWs line) idx.statusIdx ≠ none ∧
  cellAt (jsSplitWs line) idx.statusIdx ≠ some ("Running")

instance (idx : HeaderIdx) (line : String) : Decidable (rowSkippedByStatus idx line) :=
  inferInstanceAs (Decidable (And _ _))

def isErrResult : Except String ResolvedService → Bool
  | .error _ => true
  | .ok _ => false

/-! ### Concrete fixtures used by witnesses -/

def wDetails : ServiceDetails :=
  { id := "x1-y1", ns := some "ns1", serviceName := "dev-ns1-api" }

def wMap : ServicesMap := [("api", [("dev", wDetails)])]

def wOracle : PortOracle := fun _ _ => .ok "8080"

def wGood : RawEntry :=
  .obj { serviceName := some "api", localPort := .num (.int 3000),
         remotePort := .absent, ns := none, environment := none, includeLogs := true }

def wBad : RawEntry :=
  .obj { serviceName := some "api", localPort := .num (.int 99999),
         remotePort := .absent, ns := none, environment := none, includeLogs := true }

def wDetStg : ServiceDetails :=
  { id := "a-b", ns := some "shared", serviceName := "stg-svc" }

def wDetProd : ServiceDetails :=
  { id := "c-d", ns := some "prodns", serviceName := "prod-svc" }

def wMapNs : ServicesMap := [("svc", [("stg", wDetStg), ("prod", wDetProd)])]

def wSpawn : Spawn := { args := ["port-forward", "w"], label := "w" }

def cexBillingText : String := "NAME STATUS\ndev-billing-api-7f9c-2x4k Running"

def cexBillingDetails : ServiceDetails :=
  { id := "7f9c-2x4k", ns := some "billing-api", serviceName := "dev-billing-api" }

def cexBillingMap : ServicesMap := [("billing-api", [("dev", cexBillingDetails)])]

def cexDevText : String := "NAME STATUS\ndev-a-b Running"

def cexDevDetails : ServiceDetails :=
  { id := "a-b", ns := some "x", serviceName := "dev" }

def cexDevMap : ServicesMap := [("dev", [("dev", cexDevDetails)])]

def wOkText : String := "NAME STATUS\ndev-a-b-c Running\nbad Pending"

def wDupText : String := "NAME STATUS\ndev-a-b-c Running\ndev-a-d-e Running"

def wDupMap : ServicesMap :=
  [("a", [("dev", { id := "d-e", ns := some "ns1", serviceName := "dev-a" })])]

/-! ### Helper lemmas -/

theorem oAlt_none_right (a : Option α) : oAlt a none = a := by
  cases a <;> rfl

theorem assocLookup_assocUpdate (k k' : String) (f : Option β → β) (m : List (String × β)) :
    assocLookup k (assocUpdate k' f m) =
      if k = k' then some (f (assocLookup k' m)) else assocLookup k m := by
  induction m with
  | nil =>
    by_cases h : k = k'
    · subst h
      simp [assocUpdate, assocLookup]
    · have h2 : ¬ k' = k := fun hh => h hh.symm
      simp [assocUpdate, assocLookup, h, h2]
  | cons p rest ih =>
    obtain ⟨a, b⟩ := p
    by_cases ha : a = k' <;> by_cases hk : a = k
    · subst ha
      subst hk
      simp [assocUpdate, assocLookup]
    · subst ha
      have hk2 : ¬ k = a := fun h => hk h.symm
      simp [assocUpdate, assocLookup, hk, hk2]
    · subst hk
      have hkk : ¬ a = k' := ha
      simp [assocUpdate, assocLookup, ha, hkk, ih]
    · have hk2 : ¬ k = a := fun h => hk h.symm
      simp [assocUpdate, assocLookup, ha, hk, hk2, ih]

theorem assocLookup_mem (k : String) (b : β) (m : List (String × β))
    (h : assocLookup k m = some b) : (k, b) ∈ m := by
  induction m with
  | nil => simp [assocLookup] at h
  | cons p rest ih =>
    obtain ⟨a, v⟩ := p
    by_cases ha : a = k
    · subst ha
      simp [assocLookup] at h
      simp [h]
    · simp [assocLookup, ha] at h
      exact List.mem_cons_of_mem _ (ih h)

theorem keys_assocUpdate (k : String) (f : Option β → β) (m : List (String × β)) :
    (assocUpdate k f m).map Prod.fst =
      if k ∈ m.map Prod.fst then m.map Prod.fst else m.map Prod.fst ++ [k] := by
  induction m with
  | nil => simp [assocUpdate]
  | cons p rest ih =>
    obtain ⟨a, b⟩ := p
    by_cases ha : a = k
    · subst ha
      simp [assocUpdate]
    · by_cases hmem : k ∈ rest.map Prod.fst <;>
        simp [assocUpdate, ha, Ne.symm ha, hmem, ih]

theorem nodup_keys_assocUpdate (k : String) (f : Option β → β) (m : List (String × β))
    (h : (m.map Prod.fst).Nodup) : ((assocUpdate k f m).map Prod.fst).Nodup := by
  rw [keys_assocUpdate]
  split
  · exact h
  · rename_i hmem
    simp [List.nodup_append, h, hmem]

theorem mem_assocUpdate (k : String) (f : Option β → β) (m : List (String × β))
    (p : String × β) (h : p ∈ assocUpdate k f m) :
    p ∈ m ∨ p = (k, f (assocLookup k m)) := by
  induction m with
  | nil =>
    simp [assocUpdate] at h
    simp [assocLookup, h]
  | cons q rest ih =>
    obtain ⟨a, b⟩ := q
    by_cases ha : a = k
    · subst ha
      simp [assocUpdate] at h
      rcases h with h | h
      · right; simp [assocLookup, h]
      · left; exact List.mem_cons_of_mem _ h
    · simp [assocUpdate, ha] at h
      rcases h with h | h
      · left; simp [h]
      · rcases ih h with h2 | h2
        · left; exact List.mem_cons_of_mem _ h2
        · right; simpa [assocLookup, ha] using h2

theorem mapLookup_mapUpsert (m : ServicesMap) (s' e' : String) (v : ServiceDetails)
    (s e : String) :
    mapLookup (mapUpsert m s' e' v) s e =
      if s = s' ∧ e = e' then some v else mapLookup m s e := by
  unfold mapLookup mapUpsert
  rw [assocLookup_assocUpdate]
  by_cases hs : s = s'
  · rw [if_pos hs]
    simp only [Option.some_bind]
    rw [assocLookup_assocUpdate]
    by_cases he : e = e'
    · simp [hs, he]
    · cases h : assocLookup s' m <;> simp [hs, he, h, assocLookup]
  · rw [if_neg hs]
    simp [hs]

theorem nodupServicesMap_mapUpsert (m : ServicesMap) (s e : String) (v : ServiceDetails)
    (h : nodupServicesMap m) : nodupServicesMap (mapUpsert m s e v) := by
  obtain ⟨h1, h2⟩ := h
  refine ⟨nodup_keys_assocUpdate _ _ _ h1, ?_⟩
  intro p hp
  rcases mem_assocUpdate _ _ _ _ hp with hm | hm
  · exact h2 p hm
  · subst hm
    apply nodup_keys_assocUpdate
    cases hl : assocLookup s m with
    | none => simp
    | some em =>
      simpa using h2 (s, em) (assocLookup_mem _ _ _ hl)

theorem splitCharAux_ne_nil (sep : Char) (cs acc : List Char) :
    splitCharAux sep cs acc ≠ [] := by
  induction cs generalizing acc with
  | nil => simp [splitCharAux]
  | cons c rest ih =>
    by_cases h : c = sep <;> simp [splitCharAux, h, ih]

theorem splitNl_ne_nil (s : String) : splitNl s ≠ [] := by
  unfold splitNl splitChar
  simp [splitCharAux_ne_nil]

theorem joinSep_cons (sep : Char) (p : List Char) (ps : List (List Char)) (h : ps ≠ []) :
    joinSep sep (p :: ps) = p ++ sep :: joinSep sep ps := by
  cases ps with
  | nil => exact absurd rfl h
  | cons q t => rfl

theorem joinSep_splitCharAux (sep : Char) (cs : List Char) :
    ∀ acc, joinSep sep (splitCharAux sep cs acc) = acc.reverse ++ cs := by
  induction cs with
  | nil => intro acc; simp [splitCharAux, joinSep]
  | cons c rest ih =>
    intro acc
    by_cases h : c = sep
    · subst h
      rw [splitCharAux, if_pos rfl,
        joinSep_cons _ _ _ (splitCharAux_ne_nil _ _ _), ih []]
      simp
    · rw [splitCharAux, if_neg h, ih (c :: acc)]
      simp

theorem joinSep_splitChar (sep : Char) (cs : List Char) :
    joinSep sep (splitChar sep cs) = cs := by
  rw [splitChar, joinSep_splitCharAux]
  rfl

theorem take_ne_nil_of_pos (k : Nat) (l : List α) (hk : 0 < k) (hl : l ≠ []) :
    l.take k ≠ [] := by
  cases l with
  | nil => exact absurd rfl hl
  | cons a t =>
    cases k with
    | zero => exact absurd hk (by simp)
    | succ n => simp

theorem joinSep_take_drop (sep : Char) :
    ∀ (ps : List (List Char)) (k : Nat), 0 < k → k < ps.length →
      joinSep sep (ps.take k) ++ sep :: joinSep sep (ps.drop k) = joinSep sep ps := by
  intro ps
  induction ps with
  | nil => intro k h1 h2; simp at h2
  | cons p t ih =>
    intro k h1 h2
    cases k with
    | zero => exact absurd h1 (by simp)
    | succ n =>
      cases n with
      | zero =>
        have ht : t ≠ [] := by
          intro h
          subst h
          simp at h2
        simp only [List.take, List.drop]
        rw [joinSep_cons _ _ _ ht]
        simp [joinSep]
      | succ n' =>
        have hlen : n' + 1 < t.length := by simpa using h2
        have ht : t ≠ [] := by
          intro h
          subst h
          simp at hlen
        have htake : t.take (n' + 1) ≠ [] :=
          take_ne_nil_of_pos _ _ (Nat.succ_pos _) ht
        simp only [List.take, List.drop]
        rw [joinSep_cons _ _ _ htake, joinSep_cons _ _ _ ht,
          ← ih (n' + 1) (Nat.succ_pos _) hlen]
        simp

theorem length_filterMap_countP (f : α → Option β) (l : List α) :
    (l.filterMap f).length = l.countP (fun a => (f a).isSome) := by
  induction l with
  | nil => simp
  | cons a t ih =>
    cases h : f a <;> simp [List.filterMap_cons, h, List.countP_cons, ih]

theorem length_filterMap_all_some (f : α → Option β) (l : List α)
    (h : ∀ a ∈ l, (f a).isSome) : (l.filterMap f).length = l.length := by
  induction l with
  | nil => simp
  | cons a t ih =>
    cases hfa : f a with
    | none =>
      have := h a (List.mem_cons_self a t)
      rw [hfa] at this
      simp at this
    | some b =>
      simp only [List.filterMap_cons, hfa, List.length_cons]
      rw [ih (fun x hx => h x (List.mem_cons_of_mem _ hx))]

/-- Building block for string reconstruction: appending two `String.mk`
values concatenates their character lists. -/
theorem mkstr_append (a b : List Char) :
    (⟨a⟩ : String) ++ (⟨b⟩ : String) = ⟨a ++ b⟩ := rfl

/-! ### Lemmas about the parser -/

theorem parseRows_mapLookup (expNs : Option String) (idx : HeaderIdx) :
    ∀ (lines : List String) (m0 m : ServicesMap),
      parseRows expNs idx m0 lines = .ok m →
      ∀ s e, mapLookup m s e = oAlt (lastPut expNs idx s e lines) (mapLookup m0 s e) := by
  intro lines
  induction lines with
  | nil =>
    intro m0 m h s e
    simp only [parseRows] at h
    cases h
    simp [lastPut, oAlt]
  | cons l rest ih =>
    intro m0 m h s e
    simp only [parseRows] at h
    simp only [lastPut]
    cases ho : rowOutcome expNs idx l with
    | skip =>
      rw [ho] at h
      rw [ih m0 m h s e]
      have hrow : lastPutRow expNs idx s e l = none := by
        simp [lastPutRow, ho]
      rw [hrow, oAlt_none_right]
    | err =>
      rw [ho] at h
      cases h
    | put s' e' v =>
      rw [ho] at h
      rw [ih _ m h s e, mapLookup_mapUpsert]
      have hrow : lastPutRow expNs idx s e l =
          if s' = s ∧ e' = e then some v else none := by
        simp [lastPutRow, ho]
      rw [hrow]
      by_cases hc : s = s' ∧ e = e'
      · have hc' : s' = s ∧ e' = e := ⟨hc.1.symm, hc.2.symm⟩
        rw [if_pos hc, if_pos hc']
        cases lastPut expNs idx s e rest <;> simp [oAlt]
      · have hc' : ¬ (s' = s ∧ e' = e) := fun hx => hc ⟨hx.1.symm, hx.2.symm⟩
        rw [if_neg hc, if_neg hc', oAlt_none_right]

theorem parseRows_nodup (expNs : Option String) (idx : HeaderIdx) :
    ∀ (lines : List String) (m0 m : ServicesMap),
      nodupServicesMap m0 → parseRows expNs idx m0 lines = .ok m →
      nodupServicesMap m := by
  intro lines
  induction lines with
  | nil =>
    intro m0 m h0 h
    simp only [parseRows] at h
    cases h
    exact h0
  | cons l rest ih =>
    intro m0 m h0 h
    simp only [parseRows] at h
    cases ho : rowOutcome expNs idx l with
    | skip =>
      rw [ho] at h
      exact ih m0 m h0 h
    | err =>
      rw [ho] at h
      cases h
    | put s' e' v =>
      rw [ho] at h
      exact ih _ m (nodupServicesMap_mapUpsert _ _ _ _ h0) h

theorem parseServicesMap_eq (text : String) (expNs : Option String) :
    parseServicesMap text expNs =
      parseRows expNs (headerIdxOf ((splitNl (strTrim text)).headD "")) []
        ((splitNl (strTrim text)).tail) := by
  unfold parseServicesMap
  cases h : splitNl (strTrim text) with
  | nil => exact absurd h (splitNl_ne_nil _)
  | cons a t => simp [h]

theorem rowOutcome_put (expNs : Option String) (idx : HeaderIdx) (line : String)
    (s e : String) (v : ServiceDetails)
    (h : rowOutcome expNs idx line = .put s e v) :
    s = stripNsPfx v.ns (stripEnvPfx v.serviceName) ∧
    e = envTagOfName (v.serviceName ++ "-" ++ v.id) := by
  simp only [rowOutcome] at h
  split at h
  · cases h
  · split at h
    · cases h
    · rename_i nm hname
      split at h
      · rename_i hlen
        cases h
        refine ⟨rfl, ?_⟩
        have hjoin : (⟨joinSep '-' ((splitChar '-' nm.data).take
              ((splitChar '-' nm.data).length - 2))⟩ : String) ++ "-" ++
            (⟨joinSep '-' ((splitChar '-' nm.data).drop
              ((splitChar '-' nm.data).length - 2))⟩ : String) = nm := by
          have hcons : ("-" : String) = ⟨['-']⟩ := rfl
          rw [hcons, mkstr_append, mkstr_append]
          have htd := joinSep_take_drop '-' (splitChar '-' nm.data)
            ((splitChar '-' nm.data).length - 2) (by omega) (by omega)
          have : (joinSep '-' ((splitChar '-' nm.data).take
                ((splitChar '-' nm.data).length - 2)) ++ ['-']) ++
              joinSep '-' ((splitChar '-' nm.data).drop
                ((splitChar '-' nm.data).length - 2)) = nm.data := by
            rw [List.append_assoc, List.singleton_append, htd,
              joinSep_splitChar]
          rw [this]
        rw [hjoin]
      · cases h

theorem rowOutcome_err_iff (expNs : Option String) (idx : HeaderIdx) (line : String) :
    rowOutcome expNs idx line = .err ↔
      ¬ rowSkippedByStatus idx line ∧ cellAt (jsSplitWs line) idx.nameIdx = none := by
  by_cases hsk : rowSkippedByStatus idx line
  · have hs : rowOutcome expNs idx line = .skip := by
      unfold rowSkippedByStatus at hsk
      simp only [rowOutcome]
      rw [if_pos hsk]
    rw [hs]
    simp [hsk]
  · have hsk' := hsk
    unfold rowSkippedByStatus at hsk'
    cases hname : cellAt (jsSplitWs line) idx.nameIdx with
    | none =>
      have he : rowOutcome expNs idx line = .err := by
        simp only [rowOutcome]
        rw [if_neg hsk', hname]
      simp [he, hsk, hname]
    | some nm =>
      refine iff_of_false ?_ ?_
      · simp only [rowOutcome]
        rw [if_neg hsk', hname]
        dsimp only
        split <;> simp
      · rintro ⟨-, hx⟩
        cases hx

theorem parseRows_ok_of_no_err (expNs : Option String) (idx : HeaderIdx) :
    ∀ (lines : List String) (m0 : ServicesMap),
      (∀ l ∈ lines, rowOutcome expNs idx l ≠ .err) →
      ∃ m, parseRows expNs idx m0 lines = .ok m := by
  intro lines
  induction lines with
  | nil =>
    intro m0 _
    exact ⟨m0, rfl⟩
  | cons l rest ih =>
    intro m0 h
    simp only [parseRows]
    cases ho : rowOutcome expNs idx l with
    | skip => exact ih m0 (fun x hx => h x (List.mem_cons_of_mem _ hx))
    | err => exact absurd ho (h l (List.mem_cons_self _ _))
    | put s' e' v =>
      exact ih (mapUpsert m0 s' e' v) (fun x hx => h x (List.mem_cons_of_mem _ hx))

theorem parseRows_lookup_put (expNs : Option String) (idx : HeaderIdx) :
    ∀ (lines : List String) (m0 m : ServicesMap),
      parseRows expNs idx m0 lines = .ok m →
      ∀ s e v, mapLookup m s e = some v →
        mapLookup m0 s e = some v ∨
        ∃ l ∈ lines, rowOutcome expNs idx l = .put s e v := by
  intro lines
  induction lines with
  | nil =>
    intro m0 m h s e v hl
    simp only [parseRows] at h
    cases h
    exact Or.inl hl
  | cons l rest ih =>
    intro m0 m h s e v hl
    simp only [parseRows] at h
    cases ho : rowOutcome expNs idx l with
    | skip =>
      rw [ho] at h
      rcases ih m0 m h s e v hl with hb | ⟨l', hm, hp⟩
      · exact Or.inl hb
      · exact Or.inr ⟨l', List.mem_cons_of_mem _ hm, hp⟩
    | err =>
      rw [ho] at h
      cases h
    | put s' e' v' =>
      rw [ho] at h
      rcases ih _ m h s e v hl with hb | ⟨l', hm, hp⟩
      · rw [mapLookup_mapUpsert] at hb
        by_cases hc : s = s' ∧ e = e'
        · rw [if_pos hc] at hb
          cases hb
          exact Or.inr ⟨l, List.mem_cons_self _ _, by rw [ho, hc.1, hc.2]⟩
        · rw [if_neg hc] at hb
          exact Or.inl hb
      · exact Or.inr ⟨l', List.mem_cons_of_mem _ hm, hp⟩

/-! ### Claim theorems -/

/-- C5: when `resolveService` is called with a (truthy) namespace and some
entry of the short name's environment map carries that namespace, the first
such entry in iteration order is returned — its environment tag becomes the
resolved environment regardless of any requested environment; and when no
entry carries that namespace, resolution behaves exactly as if no namespace
had been requested (fall-through to the environment/first-entry rule). -/
theorem resolve_namespace_overrides (m : ServicesMap) (short ns : String)
    (envOpt : Option String) (envMap : EnvMap)
    (hm : assocLookup short m = some envMap) (hns : ns ≠ "") :
    (∀ (env : String) (d : ServiceDetails),
      envMap.find? (fun p => p.2.ns == some ns) = some (env, d) →
      resolveService m short { ns := some ns, env := envOpt } =
        some { ns := d.ns, podName := d.serviceName ++ "-" ++ d.id,
               serviceName := d.serviceName, environment := env }) ∧
    (envMap.find? (fun p => p.2.ns == some ns) = none →
      resolveService m short { ns := some ns, env := envOpt } =
        resolveService m short { ns := none, env := envOpt }) := by
  constructor
  · intro env d hf
    simp only [resolveService, hm]
    rw [if_neg hns, hf]
  · intro hf
    simp only [resolveService, hm]
    rw [if_neg hns, hf]

/-- C5 witness: in a map where short name `svc` has a `stg` entry living in
namespace `shared` and a `prod` entry elsewhere, a request for namespace
`shared` and environment `prod` resolves to the `stg` entry. -/
theorem resolve_namespace_overrides_witness :
    assocLookup "svc" wMapNs = some [("stg", wDetStg), ("prod", wDetProd)] ∧
    ("shared" : String) ≠ "" ∧
    [("stg", wDetStg), ("prod", wDetProd)].find? (fun p => p.2.ns == some "shared") =
      some ("stg", wDetStg) ∧
    resolveService wMapNs "svc" { ns := some "shared", env := some "prod" } =
      some { ns := some "shared", podName := "stg-svc-a-b",
             serviceName := "stg-svc", environment := "stg" } :=
  ⟨rfl, by decide, rfl,
    (resolve_namespace_overrides wMapNs "svc" "shared" (some "prod")
      [("stg", wDetStg), ("prod", wDetProd)] rfl (by decide)).1 "stg" wDetStg rfl⟩

/-- C6: when no explicit remote port was given and the cluster port query
fails in any way — the external command rejects, its output trims to empty, or
the output is non-numeric — the detected remote port is exactly 3000, and the
failure is not propagated (`detectRemotePort` is total). -/
theorem port_detection_fallback (q : Except Unit String)
    (h : q = .error () ∨ (∃ s, q = .ok s ∧ strTrim s = "") ∨
         (∃ s, q = .ok s ∧ jsParseInt (strTrim s) = none)) :
    detectRemotePort q = 3000 := by
  rcases h with h | ⟨s, rfl, hs⟩ | ⟨s, rfl, hs⟩
  · subst h
    rfl
  · have hg : getServicePort (.ok s) = "3000" := by
      simp [getServicePort, hs]
    unfold detectRemotePort
    rw [hg]
    decide
  · by_cases he : strTrim s = ""
    · have hg : getServicePort (.ok s) = "3000" := by
        simp [getServicePort, he]
      unfold detectRemotePort
      rw [hg]
      decide
    · have hg : getServicePort (.ok s) = strTrim s := by
        simp [getServicePort, he]
      unfold detectRemotePort
      rw [hg, hs]

/-- C6 witness: a rejected port query yields remote port 3000. -/
theorem port_detection_fallback_witness : detectRemotePort (.error ()) = 3000 :=
  port_detection_fallback (.error ()) (Or.inl rfl)

/-- C7: the stop handler reports the number of processes registered at call
time and leaves the registry empty; in particular a start call with N valid
entries (none failing) registers exactly N processes, and the following stop
reports N and clears the registry. -/
theorem stop_count_and_clear :
    (∀ registry : List Spawn,
      (stopHandler registry).count = registry.length ∧
      (stopHandler registry).registry = []) ∧
    (∀ (m : ServicesMap) (pq : PortOracle) (entries : List RawEntry),
      entries ≠ [] →
      (∀ r ∈ startResults m pq entries, isErrResult r = false) →
      (startHandler m pq entries []).registry.length = entries.length ∧
      (stopHandler ((startHandler m pq entries []).registry)).count = entries.length ∧
      (stopHandler ((startHandler m pq entries []).registry)).registry = []) := by
  constructor
  · intro registry
    exact ⟨rfl, rfl⟩
  · intro m pq entries hne hok
    have hie : entries.isEmpty = false := by
      cases entries with
      | nil => exact absurd rfl hne
      | cons a t => rfl
    have herr : startErrors m pq entries = [] := by
      unfold startErrors
      apply List.filterMap_eq_nil.mpr
      intro r hr
      cases r with
      | error e =>
        have := hok _ hr
        simp [isErrResult] at this
      | ok v => rfl
    have hres : (startResolved m pq entries).length = entries.length := by
      unfold startResolved
      rw [length_filterMap_all_some]
      · unfold startResults
        rw [List.length_map, List.enum_length]
      · intro r hr
        cases r with
        | error e =>
          have := hok _ hr
          simp [isErrResult] at this
        | ok v => rfl
    have hreg : (startHandler m pq entries []).registry =
        (startResolved m pq entries).map toSpawn := by
      simp [startHandler, hie, herr]
    refine ⟨?_, ?_, rfl⟩
    · rw [hreg, List.length_map, hres]
    · show ((startHandler m pq entries []).registry).length = entries.length
      rw [hreg, List.length_map, hres]

/-- C7 witness: starting one valid entry and stopping reports count 1 and an
empty registry. -/
theorem stop_count_and_clear_witness :
    ([wGood] : List RawEntry) ≠ [] ∧
    (∀ r ∈ startResults wMap wOracle [wGood], isErrResult r = false) ∧
    (startHandler wMap wOracle [wGood] []).registry.length = 1 ∧
    (stopHandler ((startHandler wMap wOracle [wGood] []).registry)).count = 1 ∧
    (stopHandler ((startHandler wMap wOracle [wGood] []).registry)).registry = [] := by
  have h := (stop_count_and_clear.2) wMap wOracle [wGood] (by decide) (by decide)
  exact ⟨by decide, by decide, h.1, h.2.1, h.2.2⟩

/-- C8: in every stop-handler execution, the signal trace consists of a
`SIGINT` to every registered process, then the fixed 500 ms grace wait, then a
`SIGKILL` to every registered process — so every `SIGINT` position strictly
precedes every `SIGKILL` position. -/
theorem stop_signal_ordering :
    ∀ registry : List Spawn,
      (stopHandler registry).trace =
        registry.map SigEvent.sigint ++ [SigEvent.waitMs 500] ++
          registry.map SigEvent.sigkill ∧
      ∀ (i j : Nat) (p q : Spawn),
        (stopHandler registry).trace.get? i = some (SigEvent.sigint p) →
        (stopHandler registry).trace.get? j = some (SigEvent.sigkill q) →
        i < j := by
  intro registry
  refine ⟨rfl, ?_⟩
  intro i j p q hi hj
  have htr : (stopHandler registry).trace =
      registry.map SigEvent.sigint ++
        (SigEvent.waitMs 500 :: registry.map SigEvent.sigkill) := by
    show registry.map SigEvent.sigint ++ [SigEvent.waitMs 500] ++
        registry.map SigEvent.sigkill = _
    rw [List.append_assoc]
    rfl
  rw [htr] at hi hj
  have hiA : i < (registry.map SigEvent.sigint).length := by
    by_contra hcon
    push_neg at hcon
    rw [List.get?_append_right hcon] at hi
    have hmem := List.get?_mem hi
    rcases List.mem_cons.mp hmem with hw | hk
    · cases hw
    · obtain ⟨x, -, hx⟩ := List.mem_map.mp hk
      cases hx
  have hjA : (registry.map SigEvent.sigint).length < j + 1 := by
    by_contra hcon
    push_neg at hcon
    rw [List.get?_append (by omega)] at hj
    have hmem := List.get?_mem hj
    obtain ⟨x, -, hx⟩ := List.mem_map.mp hmem
    cases hx
  omega

/-- C8 witness: with one registered process, position 0 carries its `SIGINT`,
position 2 its `SIGKILL`, and the ordering theorem yields `0 < 2`. -/
theorem stop_signal_ordering_witness :
    (stopHandler [wSpawn]).trace.get? 0 = some (SigEvent.sigint wSpawn) ∧
    (stopHandler [wSpawn]).trace.get? 2 = some (SigEvent.sigkill wSpawn) ∧
    0 < 2 :=
  ⟨rfl, rfl, (stop_signal_ordering [wSpawn]).2 0 2 wSpawn wSpawn rfl rfl⟩

/-- C1: whenever any entry of a `start_k8s_port_forward` call fails validation
or resolution, the handler spawns no port-forward process and opens no log
window, leaves the registry unchanged, and returns the error header followed
by the collected messages — one message per failing entry, collected across
all entries rather than fail-fast. -/
theorem start_batch_atomicity (m : ServicesMap) (pq : PortOracle)
    (entries : List RawEntry) (registry : List Spawn)
    (h : startErrors m pq entries ≠ []) :
    (startHandler m pq entries registry).registry = registry ∧
    (startHandler m pq entries registry).spawned = [] ∧
    (startHandler m pq entries registry).logWindows = [] ∧
    (startHandler m pq entries registry).text =
      "Validation/resolution errors:\n" ++ strJoinNl (startErrors m pq entries) ∧
    (startErrors m pq entries).length =
      (startResults m pq entries).countP isErrResult := by
  have hie : entries.isEmpty = false := by
    cases entries with
    | nil => exact absurd rfl h
    | cons a t => rfl
  have hne : (startErrors m pq entries).isEmpty = false := by
    cases herr : startErrors m pq entries with
    | nil => exact absurd herr h
    | cons a t => rfl
  have hpred : ∀ r : Except String ResolvedService,
      (Option.isSome (match r with | .error e => some e | .ok _ => none)) =
        isErrResult r := by
    intro r
    cases r <;> rfl
  have hcount : (startErrors m pq entries).length =
      (startResults m pq entries).countP isErrResult := by
    unfold startErrors
    rw [length_filterMap_countP]
    simp only [hpred]
  refine ⟨?_, ?_, ?_, ?_, hcount⟩ <;>
    simp [startHandler, hie, hne]

/-- C1 witness: one valid entry plus one entry with local port 99999 spawn
nothing, change nothing, and report exactly the failing entry. -/
theorem start_batch_atomicity_witness :
    startErrors wMap wOracle [wGood, wBad] ≠ [] ∧
    (startHandler wMap wOracle [wGood, wBad] []).registry = [] ∧
    (startHandler wMap wOracle [wGood, wBad] []).spawned = [] ∧
    (startHandler wMap wOracle [wGood, wBad] []).logWindows = [] ∧
    (startHandler wMap wOracle [wGood, wBad] []).text =
      "Validation/resolution errors:\n" ++ strJoinNl (startErrors wMap wOracle [wGood, wBad]) ∧
    (startErrors wMap wOracle [wGood, wBad]).length =
      (startResults wMap wOracle [wGood, wBad]).countP isErrResult := by
  have h := start_batch_atomicity wMap wOracle [wGood, wBad] [] (by decide)
  exact ⟨by decide, h.1, h.2.1, h.2.2.1, h.2.2.2.1, h.2.2.2.2⟩

/-- C10: port validity is exactly "integer, greater than 0, at most 65535"; a
port given as a string is coerced with JS `Number(...)` before validation and
then behaves identically to the same number given directly (for `localPort`
and for `remotePort`); and a string that does not coerce to an integer in
1..65535 produces that entry's validation error. -/
theorem port_string_coercion :
    (∀ v : JSNum, isValidPort v = true ↔
      ∃ n : Int, v = .int n ∧ 0 < n ∧ n ≤ 65535) ∧
    (∀ (m : ServicesMap) (pq : PortOracle) (i : Nat) (sv : Option String)
       (s : String) (rp : PortField) (nso envo : Option String) (il : Bool),
      processEntry m pq i (.obj { serviceName := sv, localPort := .str s,
                                  remotePort := rp, ns := nso,
                                  environment := envo, includeLogs := il }) =
      processEntry m pq i (.obj { serviceName := sv,
                                  localPort := .num (jsStringToNumber s),
                                  remotePort := rp, ns := nso,
                                  environment := envo, includeLogs := il })) ∧
    (∀ (m : ServicesMap) (pq : PortOracle) (i : Nat) (sv : Option String)
       (lp : PortField) (s : String) (nso envo : Option String) (il : Bool),
      processEntry m pq i (.obj { serviceName := sv, localPort := lp,
                                  remotePort := .str s, ns := nso,
                                  environment := envo, includeLogs := il }) =
      processEntry m pq i (.obj { serviceName := sv, localPort := lp,
                                  remotePort := .num (jsStringToNumber s),
                                  ns := nso, environment := envo,
                                  includeLogs := il })) ∧
    (∀ (m : ServicesMap) (pq : PortOracle) (i : Nat) (sv s : String)
       (rp : PortField) (nso envo : Option String) (il : Bool),
      strTrim sv ≠ "" →
      isValidPort (jsStringToNumber s) = false →
      processEntry m pq i (.obj { serviceName := some sv, localPort := .str s,
                                  remotePort := rp, ns := nso,
                                  environment := envo, includeLogs := il }) =
        .error ("Entry " ++ toString (i + 1) ++ ": localPort must be 1-65535")) ∧
    (∀ (m : ServicesMap) (pq : PortOracle) (i : Nat) (sv : String)
       (lp : PortField) (s : String) (nso envo : Option String) (il : Bool),
      strTrim sv ≠ "" →
      isValidPort (localPortNum lp) = true →
      isValidPort (jsStringToNumber s) = false →
      processEntry m pq i (.obj { serviceName := some sv, localPort := lp,
                                  remotePort := .str s, ns := nso,
                                  environment := envo, includeLogs := il }) =
        .error ("Entry " ++ toString (i + 1) ++ ": remotePort must be 1-65535")) := by
  refine ⟨?_, ?_, ?_, ?_, ?_⟩
  · intro v
    cases v with
    | int n => simp [isValidPort]
    | nonint => simp [isValidPort]
    | nan => simp [isValidPort]
  · intro m pq i sv s rp nso envo il
    rfl
  · intro m pq i sv lp s nso envo il
    rfl
  · intro m pq i sv s rp nso envo il h1 h2
    simp [processEntry, localPortNum, h1, h2]
  · intro m pq i sv lp s nso envo il h1 h2 h3
    simp [processEntry, remotePortNum, h1, h2, h3]

/-- C10 witness: `"3000"` behaves like `3000`; `"99999"` coerces to an
out-of-range integer and yields the local-port validation error. -/
theorem port_string_coercion_witness :
    (isValidPort (.int 3000) = true ↔
      ∃ n : Int, JSNum.int 3000 = .int n ∧ 0 < n ∧ n ≤ 65535) ∧
    processEntry wMap wOracle 0 (.obj { serviceName := some "api",
                                        localPort := .str "3000",
                                        remotePort := .absent, ns := none,
                                        environment := none,
                                        includeLogs := true }) =
      processEntry wMap wOracle 0 (.obj { serviceName := some "api",
                                          localPort := .num (jsStringToNumber "3000"),
                                          remotePort := .absent, ns := none,
                                          environment := none,
                                          includeLogs := true }) ∧
    strTrim "api" ≠ "" ∧
    isValidPort (jsStringToNumber "99999") = false ∧
    processEntry wMap wOracle 0 (.obj { serviceName := some "api",
                                        localPort := .str "99999",
                                        remotePort := .absent, ns := none,
                                        environment := none,
                                        includeLogs := true }) =
      .error ("Entry " ++ toString (0 + 1) ++ ": localPort must be 1-65535") :=
  ⟨port_string_coercion.1 (.int 3000),
   port_string_coercion.2.1 wMap wOracle 0 (some "api") "3000" .absent none none true,
   by decide, by decide,
   port_string_coercion.2.2.2.1 wMap wOracle 0 "api" "99999" .absent none none true
     (by decide) (by decide)⟩

/-- C2 counterexample: the pod `dev-billing-api-7f9c-2x4k` parsed with
explicit namespace `billing-api` is stored under short name `billing-api`,
not `api` as the claim states — the namespace strip requires the namespace
followed by a hyphen to prefix the remainder, and `billing-api` is the whole
remainder. -/
theorem parse_short_name_example_cex :
    parseServicesMap cexBillingText (some "billing-api") = .ok cexBillingMap ∧
    mapLookup cexBillingMap "billing-api" "dev" = some cexBillingDetails ∧
    assocLookup "api" cexBillingMap = none ∧
    ("billing-api" : String) ≠ "api" :=
  ⟨rfl, rfl, rfl, by decide⟩

/-- C2 amended: the example row yields short name `billing-api`, environment
tag `dev`, id `7f9c-2x4k` and fullServiceName `dev-billing-api`; in general
the short name of every stored entry is obtained by stripping the matched
environment prefix from the front of fullServiceName, then stripping the
effective namespace followed by `-` when that prefixes the remainder. -/
theorem parse_short_name_example_amended :
    (parseServicesMap cexBillingText (some "billing-api") = .ok cexBillingMap ∧
     mapLookup cexBillingMap "billing-api" "dev" = some cexBillingDetails) ∧
    (∀ (text : String) (expNs : Option String) (m : ServicesMap) (s e : String)
       (v : ServiceDetails),
      parseServicesMap text expNs = .ok m → mapLookup m s e = some v →
      s = stripNsPfx v.ns (stripEnvPfx v.serviceName)) := by
  refine ⟨⟨rfl, rfl⟩, ?_⟩
  intro text expNs m s e v hp hl
  rw [parseServicesMap_eq] at hp
  rcases parseRows_lookup_put _ _ _ _ _ hp s e v hl with hb | ⟨l, -, ho⟩
  · simp [mapLookup, assocLookup] at hb
  · exact (rowOutcome_put _ _ _ _ _ _ ho).1

/-- C2 amended witness: the stored example entry has exactly the short name
computed by the env-then-namespace stripping rule. -/
theorem parse_short_name_example_amended_witness :
    parseServicesMap cexBillingText (some "billing-api") = .ok cexBillingMap ∧
    mapLookup cexBillingMap "billing-api" "dev" = some cexBillingDetails ∧
    ("billing-api" : String) =
      stripNsPfx cexBillingDetails.ns (stripEnvPfx cexBillingDetails.serviceName) :=
  ⟨rfl, rfl,
    parse_short_name_example_amended.2 cexBillingText (some "billing-api")
      cexBillingMap "billing-api" "dev" cexBillingDetails rfl rfl⟩

/-- C3 counterexample: for the pod `dev-a-b` (three segments), the
fullServiceName is `dev`, which `dev-` does not prefix, so the claim's rule
predicts tag `default`; the code derives the tag from the whole pod name and
stores the row under environment `dev`. -/
theorem parse_env_tag_cex :
    parseServicesMap cexDevText (some "x") = .ok cexDevMap ∧
    mapLookup cexDevMap "dev" "dev" = some cexDevDetails ∧
    claimEnvTagOfServiceName cexDevDetails.serviceName = "default" ∧
    mapLookup cexDevMap "dev" "default" = none ∧
    ("dev" : String) ≠ "default" :=
  ⟨rfl, rfl, rfl, rfl, by decide⟩

/-- C3 amended: for every stored entry, the environment tag is the first
element of the ordered set {dev, qa, stg, prod} whose value followed by `-`
is a prefix of the full pod name (fullServiceName ++ "-" ++ id); if none
matches, the tag is `default`. -/
theorem parse_env_tag_amended :
    ∀ (text : String) (expNs : Option String) (m : ServicesMap) (s e : String)
      (v : ServiceDetails),
      parseServicesMap text expNs = .ok m → mapLookup m s e = some v →
      e = envTagOfName (v.serviceName ++ "-" ++ v.id) := by
  intro text expNs m s e v hp hl
  rw [parseServicesMap_eq] at hp
  rcases parseRows_lookup_put _ _ _ _ _ hp s e v hl with hb | ⟨l, -, ho⟩
  · simp [mapLookup, assocLookup] at hb
  · exact (rowOutcome_put _ _ _ _ _ _ ho).2

/-- C3 amended witness: the `dev-a-b` entry is stored under the tag computed
from its pod name. -/
theorem parse_env_tag_amended_witness :
    parseServicesMap cexDevText (some "x") = .ok cexDevMap ∧
    mapLookup cexDevMap "dev" "dev" = some cexDevDetails ∧
    ("dev" : String) =
      envTagOfName (cexDevDetails.serviceName ++ "-" ++ cexDevDetails.id) :=
  ⟨rfl, rfl,
    parse_env_tag_amended cexDevText (some "x") cexDevMap "dev" "dev"
      cexDevDetails rfl rfl⟩

/-- C4 counterexample: on a listing whose header has no NAME column (with at
least one surviving row), the parser dereferences an undefined name cell and
raises — it is not total on arbitrary input. -/
theorem parse_raises_cex :
    parseServicesMap "NAMESPACE STATUS\nfoo Running" none = .error () := rfl

/-- C4 amended: `parseServicesMap` raises no error provided every row that
survives the status filter has a NAME cell (in particular whenever the header
names a NAME column and rows are wide enough); all other malformed rows — too
few name segments, non-Running status — are dropped silently, degrading to an
empty or partial map. -/
theorem parse_no_raise_amended (text : String) (expNs : Option String)
    (h : ∀ l ∈ (splitNl (strTrim text)).tail,
      rowSkippedByStatus (headerIdxOf ((splitNl (strTrim text)).headD "")) l ∨
      (cellAt (jsSplitWs l)
        (headerIdxOf ((splitNl (strTrim text)).headD "")).nameIdx).isSome) :
    ∃ m, parseServicesMap text expNs = .ok m := by
  rw [parseServicesMap_eq]
  apply parseRows_ok_of_no_err
  intro l hl
  intro hcon
  rw [rowOutcome_err_iff] at hcon
  obtain ⟨hns, hnone⟩ := hcon
  rcases h l hl with hs | hn
  · exact hns hs
  · rw [hnone] at hn
    simp at hn

/-- C4 amended witness: a listing with a NAME column, one running row and one
filtered row parses without raising. -/
theorem parse_no_raise_amended_witness :
    (∀ l ∈ (splitNl (strTrim wOkText)).tail,
      rowSkippedByStatus (headerIdxOf ((splitNl (strTrim wOkText)).headD "")) l ∨
      (cellAt (jsSplitWs l)
        (headerIdxOf ((splitNl (strTrim wOkText)).headD "")).nameIdx).isSome) ∧
    ∃ m, parseServicesMap wOkText none = .ok m :=
  ⟨by decide, parse_no_raise_amended wOkText none (by decide)⟩

/-- C9: in a successfully parsed map each (short name, environment tag) key
is unique at both levels, and the identity found under a key is the one
written by the last listing row that produces that key — later rows overwrite
earlier ones. -/
theorem parse_last_row_wins (text : String) (expNs : Option String)
    (m : ServicesMap) (h : parseServicesMap text expNs = .ok m) :
    nodupServicesMap m ∧
    ∀ s e, mapLookup m s e =
      lastPut expNs (headerIdxOf ((splitNl (strTrim text)).headD "")) s e
        ((splitNl (strTrim text)).tail) := by
  rw [parseServicesMap_eq] at h
  constructor
  · exact parseRows_nodup _ _ _ _ _ ⟨by simp, by simp⟩ h
  · intro s e
    rw [parseRows_mapLookup _ _ _ _ _ h s e,
      show mapLookup [] s e = none from rfl, oAlt_none_right]

/-- C9 witness: two running rows producing the same key `(a, dev)` leave the
second row's identity in the map. -/
theorem parse_last_row_wins_witness :
    parseServicesMap wDupText (some "ns1") = .ok wDupMap ∧
    (nodupServicesMap wDupMap ∧
     ∀ s e, mapLookup wDupMap s e =
       lastPut (some "ns1") (headerIdxOf ((splitNl (strTrim wDupText)).headD ""))
         s e ((splitNl (strTrim wDupText)).tail)) :=
  ⟨rfl, parse_last_row_wins wDupText (some "ns1") wDupMap rfl⟩

end K8s
